import Mathlib

/-!
Verification of the usage reconciliation pipeline of src/providers/index.ts
(the GitHub Copilot usage provider of the usage-limits dashboard).

The TypeScript source is shallowly embedded: JavaScript numbers are modelled
as rationals together with a non-finite marker, JavaScript Maps as association
lists with insert-in-place-or-append semantics, thrown errors as Except, the
progress callback as an oracle giving the outcome of each invocation, and the
two network fetches as oracle inputs (the decoded value or the thrown error).
The engine-specific Date-string parser reached by normalizeDayKey when the
leading YYYY-MM-DD pattern does not match is kept abstract as a parameter dp.
-/

namespace UsageLimits

/-- A JavaScript number as the billing schemas deliver it: a finite value
(modelled as a rational) or a non-finite one (Infinity or -Infinity; NaN is
rejected by the zod schemas). -/
inductive JsNum where
  | fin (q : ℚ)
  | nonfin
  deriving DecidableEq, Repr

/-- Embeds valueOrZero: the value of a present, finite numeric field, else 0. -/
def valueOrZero : Option JsNum → ℚ
  | some (.fin q) => q
  | _ => 0

/-- JavaScript's number-valued x || y: x when truthy (nonzero), else y. -/
def jsOr (x y : ℚ) : ℚ := if x = 0 then y else x

/-- Does the pattern start the character list? -/
def listStarts : List Char → List Char → Bool
  | [], _ => true
  | _ :: _, [] => false
  | a :: as, b :: bs => a == b && listStarts as bs

/-- Does the pattern occur contiguously inside the character list? -/
def listHasRun (pat : List Char) : List Char → Bool
  | [] => listStarts pat []
  | s :: rest => listStarts pat (s :: rest) || listHasRun pat rest

/-- JavaScript String.prototype.includes. -/
def strIncludes (s pat : String) : Bool := listHasRun pat.toList s.toList

/-- JavaScript String.prototype.toLowerCase; the fields the provider compares
are ASCII, where Char.toLower agrees with it. -/
def strLower (s : String) : String := String.mk (s.data.map Char.toLower)

/-- JavaScript String.prototype.trim (over the common whitespace characters). -/
def strTrim (s : String) : String :=
  String.mk (((s.data.dropWhile Char.isWhitespace).reverse.dropWhile Char.isWhitespace).reverse)

/-- Embeds isCopilotPremiumRequest: case-insensitive substring tests on the
product and sku of a premium-request usage item. -/
def isCopilotPremiumRequest (product sku : String) : Bool :=
  strIncludes (strLower product) "copilot" && strIncludes (strLower sku) "premium request"

/-- One usage item of the premium-request summary endpoint
(githubUsageItemSchema). -/
structure GithubUsageItem where
  product : String
  sku : String
  model : String
  unitType : String
  grossQuantity : Option JsNum := none
  grossAmount : Option JsNum := none
  discountQuantity : Option JsNum := none
  discountAmount : Option JsNum := none
  netQuantity : Option JsNum := none
  netAmount : Option JsNum := none
  pricePerUnit : Option JsNum := none
  deriving DecidableEq, Repr

/-- One bucket of the premium-request summary endpoint
(githubUsageBucketSchema); the fields not read by the provider are omitted. -/
structure GithubUsageBucket where
  usageItems : Option (List GithubUsageItem) := none
  usage_items : Option (List GithubUsageItem) := none
  deriving DecidableEq, Repr

/-- One entry of the current-month model breakdown (UsageBreakdownItem). -/
structure UsageBreakdownItem where
  label : String
  used : ℚ
  cost : ℚ
  deriving DecidableEq, Repr

/-- The per-day accumulator value of the daily series. -/
structure DayVal where
  used : ℚ
  cost : ℚ
  deriving DecidableEq, Repr

/-- JavaScript Map.prototype.get on an association-list model of a Map. -/
def mapGet {β : Type} (m : List (String × β)) (k : String) : Option β :=
  (m.find? (fun p => p.1 == k)).map (fun p => p.2)

/-- JavaScript Map.prototype.set: replaces the value in place when the key is
present, else appends the new pair, preserving insertion order. -/
def mapSet {β : Type} : List (String × β) → String → β → List (String × β)
  | [], k, v => [(k, v)]
  | p :: rest, k, v => if p.1 == k then (k, v) :: rest else p :: mapSet rest k v

/-- The breakdown accumulator, a Map keyed by label. -/
abbrev BreakdownMap := List (String × UsageBreakdownItem)

/-- The daily accumulator, a Map keyed by YYYY-MM-DD day. -/
abbrev DayMap := List (String × DayVal)

/-- The running current-month accumulator of fetchGitHubCopilotUsage:
currentUsed, currentCost, currentDiscountQuantity and currentByModel. -/
structure CurrentState where
  used : ℚ
  cost : ℚ
  discountQuantity : ℚ
  byModel : BreakdownMap
  deriving DecidableEq, Repr

/-- The empty current-month accumulator. -/
def initialCurrentState : CurrentState :=
  { used := 0, cost := 0, discountQuantity := 0, byModel := [] }

/-- Embeds the body of the current-month item loop of fetchGitHubCopilotUsage
(one iteration, one usage item). -/
def processCurrentItem (st : CurrentState) (item : GithubUsageItem) : CurrentState :=
  if isCopilotPremiumRequest item.product item.sku then
    let quantity := jsOr (valueOrZero item.grossQuantity) (valueOrZero item.netQuantity)
    let amount := jsOr (valueOrZero item.netAmount) (valueOrZero item.grossAmount)
    let byModel :=
      match mapGet st.byModel item.model with
      | some existing =>
          mapSet st.byModel item.model
            { existing with used := existing.used + quantity, cost := existing.cost + amount }
      | none =>
          mapSet st.byModel item.model { label := item.model, used := quantity, cost := amount }
    { used := st.used + quantity
      cost := st.cost + amount
      discountQuantity := st.discountQuantity + valueOrZero item.discountQuantity
      byModel := byModel }
  else st

/-- Embeds bucket.usageItems ?? bucket.usage_items ?? []. -/
def bucketItems (b : GithubUsageBucket) : List GithubUsageItem :=
  (b.usageItems.orElse (fun _ => b.usage_items)).getD []

/-- Embeds the whole current-month accumulation loop over the fetched buckets. -/
def processCurrentBuckets (buckets : List GithubUsageBucket) : CurrentState :=
  buckets.foldl (fun st b => (bucketItems b).foldl processCurrentItem st) initialCurrentState

/-- One usage item of the general billing-usage endpoint
(githubBillingUsageItemSchema). -/
structure GithubBillingUsageItem where
  date : Option String := none
  product : String
  sku : Option String := none
  quantity : Option JsNum := none
  unitType : Option String := none
  grossAmount : Option JsNum := none
  discountAmount : Option JsNum := none
  netAmount : Option JsNum := none
  repositoryName : Option String := none
  deriving DecidableEq, Repr

/-- The anchored pattern of normalizeDayKey: four digits, dash, two digits,
dash, two digits at the start of the string; the matched ten characters. -/
def ymdLead (t : String) : Option String :=
  match t.toList with
  | y1 :: y2 :: y3 :: y4 :: '-' :: m1 :: m2 :: '-' :: d1 :: d2 :: _ =>
      if y1.isDigit && y2.isDigit && y3.isDigit && y4.isDigit
          && m1.isDigit && m2.isDigit && d1.isDigit && d2.isDigit then
        some (String.mk [y1, y2, y3, y4, '-', m1, m2, '-', d1, d2])
      else none
  | _ => none

/-- Embeds normalizeDayKey. The parameter dp is the abstract JavaScript
Date-parse fallback: new Date(s) followed by toISOString().slice(0, 10),
none when the parsed time is not finite. -/
def normalizeDayKey (dp : String → Option String) : Option String → Option String
  | none => none
  | some v =>
    if v.data.isEmpty then none
    else
      let trimmed := strTrim v
      if trimmed.data.isEmpty then none
      else
        match ymdLead trimmed with
        | some k => some k
        | none => dp trimmed

/-- A decoded JSON value, as the loosely typed report rows deliver it. -/
inductive Json where
  | str (s : String)
  | num (n : JsNum)
  | jbool (b : Bool)
  | jnull
  | arr (elems : List Json)
  | obj (fields : List (String × Json))

/-- A decoded JSON object (the JsonRecord of the source). -/
abbrev JsonRecord := List (String × Json)

/-- JavaScript property access record[key]; none models undefined. -/
def recGet (r : JsonRecord) (k : String) : Option Json :=
  (r.find? (fun p => p.1 == k)).map (fun p => p.2)

/-- Property access under the nullish-coalescing operator: null counts as
absent. -/
def recGetNullish (r : JsonRecord) (k : String) : Option Json :=
  match recGet r k with
  | some .jnull => none
  | some v => some v
  | none => none

/-- Embeds toRecord: an object value (not an array, not null) or null. -/
def toRecord : Option Json → Option JsonRecord
  | some (.obj fields) => some fields
  | _ => none

/-- Embeds pickString: the first listed key whose value is a string with
nonempty trim, returned trimmed. -/
def pickString (r : JsonRecord) : List String → Option String
  | [] => none
  | k :: rest =>
    match recGet r k with
    | some (.str s) => if 0 < (strTrim s).length then some (strTrim s) else pickString r rest
    | _ => pickString r rest

/-- Embeds pickNumber: the first listed key whose value is a finite number. -/
def pickNumber (r : JsonRecord) : List String → Option ℚ
  | [] => none
  | k :: rest =>
    match recGet r k with
    | some (.num (.fin q)) => some q
    | _ => pickNumber r rest

/-- JavaScript Math.trunc on a finite number. -/
def jsTrunc (q : ℚ) : ℤ := if q < 0 then ⌈q⌉ else ⌊q⌋

/-- JavaScript String.prototype.padStart with the pad character 0. -/
def padZero (s : String) (n : Nat) : String :=
  if n ≤ s.length then s else String.mk (List.replicate (n - s.length) '0') ++ s

/-- The day-ish string fields probed first by extractDayKey. -/
def dayFieldKeys : List String := ["day", "date", "report_day", "usage_day"]

/-- Embeds extractDayKey: a normalized explicit date-like field, else the
timePeriod (or time_period) object when year, month and day are all present. -/
def extractDayKey (dp : String → Option String) (record : JsonRecord) : Option String :=
  match normalizeDayKey dp (pickString record dayFieldKeys) with
  | some k => some k
  | none =>
    match toRecord ((recGetNullish record "timePeriod").orElse
        (fun _ => recGetNullish record "time_period")) with
    | none => none
    | some tp =>
      match pickNumber tp ["year"], pickNumber tp ["month"], pickNumber tp ["day"] with
      | some y, some m, some d =>
          some (padZero (toString (jsTrunc y)) 4 ++ "-" ++ padZero (toString (jsTrunc m)) 2
            ++ "-" ++ padZero (toString (jsTrunc d)) 2)
      | _, _, _ => none

/-- Embeds isChatLikeFeature: a case-insensitive substring match against the
fixed vocabulary chat, ask, agent, edit. -/
def isChatLikeFeature : Option String → Bool
  | none => false
  | some v =>
      strIncludes (strLower v) "chat" || strIncludes (strLower v) "ask"
        || strIncludes (strLower v) "agent" || strIncludes (strLower v) "edit"

/-- Embeds hasChatNamedField: some key of the record contains chat,
case-insensitively. -/
def hasChatNamedField (record : JsonRecord) : Bool :=
  record.any (fun p => strIncludes (strLower p.1) "chat")

/-- Embeds addToBreakdown: trim the label (empty trim becomes default), then
add to the used of an existing entry, else insert a fresh entry with cost 0. -/
def addToBreakdown (map : BreakdownMap) (label : String) (used : ℚ) : BreakdownMap :=
  let cleanLabel := if (strTrim label).data.isEmpty then "default" else strTrim label
  match mapGet map cleanLabel with
  | some current => mapSet map cleanLabel { current with used := current.used + used }
  | none => mapSet map cleanLabel { label := cleanLabel, used := used, cost := 0 }

/-- Embeds addToDaily: skip a missing (or empty) day, else add to the used of
the day entry, defaulting a fresh entry to zero. -/
def addToDaily (map : DayMap) (day : Option String) (used : ℚ) : DayMap :=
  match day with
  | none => map
  | some d =>
    if d.data.isEmpty then map
    else
      let current := (mapGet map d).getD { used := 0, cost := 0 }
      mapSet map d { current with used := current.used + used }

/-- The explicit chat-count field names probed by collectChatCountFromEntry. -/
def chatCountKeys : List String :=
  ["total_chats", "total_chat_requests", "chat_requests", "chat_request_count",
    "total_chat_count"]

/-- The interaction-count field names probed by collectChatCountFromEntry. -/
def interactionKeys : List String :=
  ["user_initiated_interaction_count", "interaction_count"]

/-- The feature-name field names probed by collectChatCountFromEntry. -/
def featureKeys : List String := ["feature", "chat_mode", "mode", "surface", "copilot_feature"]

/-- The value collectChatCountFromEntry returns together with the two
accumulators it updates. -/
structure ChatCollectResult where
  breakdown : BreakdownMap
  byDay : DayMap
  count : ℚ
  deriving DecidableEq, Repr

/-- Embeds collectChatCountFromEntry. -/
def collectChatCountFromEntry (dp : String → Option String) (entry : JsonRecord)
    (fallbackDay : Option String) (fallbackIde : Option String)
    (breakdown : BreakdownMap) (byDay : DayMap) : ChatCollectResult :=
  let day := (extractDayKey dp entry).orElse (fun _ => fallbackDay)
  let feature := pickString entry featureKeys
  let hasChatField := hasChatNamedField entry
  let explicitChatCount := pickNumber entry chatCountKeys
  let count : Option ℚ :=
    match explicitChatCount with
    | some c => some c
    | none =>
      match pickNumber entry interactionKeys with
      | some interactions =>
          if hasChatField || isChatLikeFeature feature then some interactions else none
      | none => none
  match count with
  | none => { breakdown, byDay, count := 0 }
  | some c =>
    if c ≤ 0 then { breakdown, byDay, count := 0 }
    else
      let ide := fallbackIde.orElse (fun _ => pickString entry ["ide", "editor", "ide_name", "client", "platform"])
      let model := (pickString entry ["model", "model_name", "model_id", "name"]).getD "default"
      let label := match ide with | some i => i ++ "/" ++ model | none => model
      { breakdown := addToBreakdown breakdown label c
        byDay := addToDaily byDay day c
        count := c }

/-- One point of the daily series (DailyUsagePoint). -/
structure DailyUsagePoint where
  day : String
  used : ℚ
  cost : ℚ
  deriving DecidableEq, Repr

/-- One partial-result object passed to the progress callback; every field is
optional, consumers treat the object as a merge patch. -/
structure UpdatePayload where
  used : Option ℚ := none
  cost : Option ℚ := none
  breakdown : Option (List UsageBreakdownItem) := none
  daily : Option (List DailyUsagePoint) := none
  fetchedMonths : Option Nat := none
  deriving DecidableEq, Repr

/-- The final value of fetchGitHubCopilotUsage; the fields the claims are
about (the static details strings, unit and limit are omitted). -/
structure UsageResultModel where
  used : ℚ
  cost : ℚ
  breakdown : List UsageBreakdownItem
  daily : List DailyUsagePoint
  fetchedMonths : Nat
  discountQuantity : ℚ
  deriving DecidableEq, Repr

/-- Embeds the two identical daily-series constructions: spread the Map
entries, sort ascending by day, shape each entry as a DailyUsagePoint. -/
def sortDaily (m : DayMap) : List DailyUsagePoint :=
  (m.mergeSort (fun a b => decide (a.1 ≤ b.1))).map
    (fun p => { day := p.1, used := p.2.used, cost := p.2.cost })

/-- Embeds the two identical breakdown constructions: spread the Map values
and sort descending by used. -/
def sortBreakdown (m : BreakdownMap) : List UsageBreakdownItem :=
  (m.map (fun p => p.2)).mergeSort (fun a b => decide (b.used ≤ a.used))

/-- The mutable state of the 24-month historical loop: the day Map, the
fetchedCount counter, the updates delivered to the callback so far and the
number of callback invocations so far. -/
structure LoopState where
  byDay : DayMap
  fetchedCount : Nat
  updates : List UpdatePayload
  cbIndex : Nat
  deriving DecidableEq, Repr

/-- Embeds one iteration of the inner item loop over a fetched month: filter
to copilot products, require a normalizable date, then add quantity and
amount to the day entry; the Bool is this item's contribution to
changedInMonth. -/
def processBillingItem (dp : String → Option String) (byDay : DayMap)
    (item : GithubBillingUsageItem) : DayMap × Bool :=
  if strIncludes (strLower item.product) "copilot" then
    match normalizeDayKey dp item.date with
    | none => (byDay, false)
    | some day =>
      let quantity := valueOrZero item.quantity
      let amount := jsOr (valueOrZero item.netAmount) (valueOrZero item.grossAmount)
      let current := (mapGet byDay day).getD { used := 0, cost := 0 }
      (mapSet byDay day { used := current.used + quantity, cost := current.cost + amount }, true)
  else (byDay, false)

/-- Embeds the item loop over one fetched month: the updated day Map together
with the changedInMonth flag. -/
def processMonthItems (dp : String → Option String) (byDay : DayMap)
    (items : List GithubBillingUsageItem) : DayMap × Bool :=
  items.foldl
    (fun acc item =>
      let r := processBillingItem dp acc.1 item
      (r.1, acc.2 || r.2))
    (byDay, false)

/-- Embeds one iteration of the historical month loop, try/catch included: a
fetch that throws leaves the state untouched; a successful fetch bumps
fetchedCount, merges the items and, when something changed and a callback is
supplied, delivers an update; a callback that throws is absorbed by the same
catch (only the inter-month delay is skipped), so both outcomes continue with
the already mutated state. -/
def runHistoricalMonth (dp : String → Option String) (hasCb : Bool)
    (cb : Nat → Except String Unit) (st : LoopState)
    (fetchResult : Except String (List GithubBillingUsageItem)) : LoopState :=
  match fetchResult with
  | .error _ => st
  | .ok items =>
    let fetchedCount := st.fetchedCount + 1
    let merged := processMonthItems dp st.byDay items
    let byDay := merged.1
    let changed := merged.2
    if changed && hasCb then
      let payload : UpdatePayload :=
        { daily := some (sortDaily byDay), fetchedMonths := some fetchedCount }
      let st' : LoopState :=
        { byDay := byDay, fetchedCount := fetchedCount
          updates := st.updates ++ [payload], cbIndex := st.cbIndex + 1 }
      match cb st.cbIndex with
      | .error _ => st'
      | .ok _ => st'
    else { st with byDay := byDay, fetchedCount := fetchedCount }

/-- Embeds the whole historical month loop. -/
def runHistoricalLoop (dp : String → Option String) (hasCb : Bool)
    (cb : Nat → Except String Unit) (st : LoopState) :
    List (Except String (List GithubBillingUsageItem)) → LoopState
  | [] => st
  | m :: rest => runHistoricalLoop dp hasCb cb (runHistoricalMonth dp hasCb cb st m) rest

/-- Embeds fetchGitHubCopilotUsage after configuration validation, over the
fetch and callback oracles: currentFetch is the current-month premium-request
summary call, monthFetches the billing-usage call for each window month in
order (current month first), and cb the outcome of each callback invocation.
Returns the settled promise together with every partial result delivered to
the callback. -/
def fetchGitHubCopilotUsage (dp : String → Option String)
    (currentFetch : Except String (List GithubUsageBucket))
    (monthFetches : List (Except String (List GithubBillingUsageItem)))
    (hasCb : Bool) (cb : Nat → Except String Unit) :
    Except String UsageResultModel × List UpdatePayload :=
  match currentFetch with
  | .error e => (.error e, [])
  | .ok buckets =>
    let cur := processCurrentBuckets buckets
    let initUpdate : UpdatePayload :=
      { used := some cur.used, cost := some cur.cost
        breakdown := some (sortBreakdown cur.byModel) }
    let sentInit : List UpdatePayload := if hasCb then [initUpdate] else []
    match if hasCb then cb 0 else .ok () with
    | .error e => (.error e, sentInit)
    | .ok _ =>
      let final := runHistoricalLoop dp hasCb cb
        { byDay := [], fetchedCount := 1, updates := sentInit
          cbIndex := if hasCb then 1 else 0 } monthFetches
      (.ok { used := cur.used, cost := cur.cost
             breakdown := sortBreakdown cur.byModel
             daily := sortDaily final.byDay
             fetchedMonths := final.fetchedCount
             discountQuantity := cur.discountQuantity }, final.updates)

/-! Lemmas about the Map model. -/

theorem mapGet_set_self {β : Type} (m : List (String × β)) (k : String) (v : β) :
    mapGet (mapSet m k v) k = some v := by
  induction m with
  | nil => simp [mapGet, mapSet]
  | cons p rest ih =>
    by_cases h : p.1 = k
    · simp [mapSet, mapGet, h]
    · simp only [mapSet, beq_iff_eq, h, if_false]
      simpa [mapGet, h] using ih

theorem mapGet_set_ne {β : Type} (m : List (String × β)) (k k' : String) (v : β)
    (h : k' ≠ k) : mapGet (mapSet m k v) k' = mapGet m k' := by
  induction m with
  | nil => simp [mapGet, mapSet, h, Ne.symm h]
  | cons p rest ih =>
    by_cases hp : p.1 = k
    · simp [mapSet, mapGet, hp, Ne.symm h, h]
    · by_cases hp' : p.1 = k'
      · simp [mapSet, mapGet, hp, hp', h, Ne.symm h]
      · simp only [mapSet, beq_iff_eq, hp, if_false]
        simpa [mapGet, hp'] using ih

theorem mem_keys_mapSet {β : Type} (m : List (String × β)) (k a : String) (v : β) :
    a ∈ (mapSet m k v).map Prod.fst ↔ a ∈ m.map Prod.fst ∨ a = k := by
  induction m with
  | nil => simp [mapSet]
  | cons p rest ih =>
    by_cases hp : p.1 = k
    · simp [mapSet, hp]
      tauto
    · simp [mapSet, hp, ih]
      tauto

theorem keysNodup_mapSet {β : Type} (m : List (String × β)) (k : String) (v : β)
    (h : (m.map Prod.fst).Nodup) : ((mapSet m k v).map Prod.fst).Nodup := by
  induction m with
  | nil => simp [mapSet]
  | cons p rest ih =>
    simp only [List.map_cons, List.nodup_cons] at h
    by_cases hp : p.1 = k
    · simp only [mapSet, beq_iff_eq, hp, if_true, List.map_cons, List.nodup_cons]
      exact ⟨hp ▸ h.1, h.2⟩
    · simp only [mapSet, beq_iff_eq, hp, if_false, List.map_cons, List.nodup_cons]
      refine ⟨fun hc => ?_, ih h.2⟩
      rcases (mem_keys_mapSet rest k p.1 v).1 hc with hin | heq
      · exact h.1 hin
      · exact hp heq

/-! Lemmas about the two sort constructions. -/

theorem sortBreakdown_pairwise (m : BreakdownMap) :
    (sortBreakdown m).Pairwise (fun a b => b.used ≤ a.used) := by
  have h := @List.sorted_mergeSort UsageBreakdownItem
    (fun a b : UsageBreakdownItem => decide (b.used ≤ a.used))
    (fun a b c hab hbc => by
      simp only [decide_eq_true_eq] at *
      exact le_trans hbc hab)
    (fun a b => by
      simpa using le_total b.used a.used)
    (m.map (fun p => p.2))
  refine (List.Pairwise.imp ?_ h)
  intro a b hab
  simpa using hab

theorem sortDaily_pairwise (m : DayMap) (h : (m.map Prod.fst).Nodup) :
    (sortDaily m).Pairwise (fun a b => a.day < b.day) := by
  have hsorted := @List.sorted_mergeSort (String × DayVal)
    (fun a b : String × DayVal => decide (a.1 ≤ b.1))
    (fun a b c hab hbc => by
      simp only [decide_eq_true_eq] at *
      exact le_trans hab hbc)
    (fun a b => by
      simpa using le_total a.1 b.1)
    m
  have hperm := List.mergeSort_perm m (fun a b : String × DayVal => decide (a.1 ≤ b.1))
  have hnodup : ((m.mergeSort (fun a b => decide (a.1 ≤ b.1))).map Prod.fst).Nodup :=
    (hperm.map Prod.fst).nodup_iff.mpr h
  have hne : (m.mergeSort (fun a b => decide (a.1 ≤ b.1))).Pairwise
      (fun a b : String × DayVal => a.1 ≠ b.1) :=
    (List.pairwise_map).1 hnodup
  have hlt : (m.mergeSort (fun a b => decide (a.1 ≤ b.1))).Pairwise
      (fun a b : String × DayVal => a.1 < b.1) := by
    refine ((hsorted.and hne).imp ?_)
    intro a b hab
    have h1 : a.1 ≤ b.1 := by simpa using hab.1
    exact lt_of_le_of_ne h1 hab.2
  unfold sortDaily
  exact (List.pairwise_map).2 hlt

/-! Claim C1. -/

/-- The value of an optional numeric field when it is present and finite. -/
def presentFinite : Option JsNum → Option ℚ
  | some (.fin q) => some q
  | _ => none

/-- The value of an optional numeric field when it is present, finite and
nonzero (the condition under which the JavaScript || keeps it). -/
def presentFiniteNonzero : Option JsNum → Option ℚ
  | some (.fin q) => if q = 0 then none else some q
  | _ => none

/-- Written from the amended claim: the quantity of a premium-request item is
grossQuantity when present, finite and nonzero, else netQuantity when present
and finite, else 0. -/
def claimQuantity (item : GithubUsageItem) : ℚ :=
  (presentFiniteNonzero item.grossQuantity).getD ((presentFinite item.netQuantity).getD 0)

/-- Written from the amended claim: the cost of a premium-request item is
netAmount when present, finite and nonzero, else grossAmount when present and
finite, else 0. -/
def claimCost (item : GithubUsageItem) : ℚ :=
  (presentFiniteNonzero item.netAmount).getD ((presentFinite item.grossAmount).getD 0)

/-- The used total recorded in the breakdown Map under a label, 0 when the
label is absent. -/
def breakdownUsed (m : BreakdownMap) (k : String) : ℚ :=
  ((mapGet m k).map (fun e => e.used)).getD 0

/-- The cost total recorded in the breakdown Map under a label, 0 when the
label is absent. -/
def breakdownCost (m : BreakdownMap) (k : String) : ℚ :=
  ((mapGet m k).map (fun e => e.cost)).getD 0

theorem presentFinite_getD (b : Option JsNum) : (presentFinite b).getD 0 = valueOrZero b := by
  match b with
  | none => rfl
  | some .nonfin => rfl
  | some (.fin q) => rfl

theorem jsOr_valueOrZero (a b : Option JsNum) :
    jsOr (valueOrZero a) (valueOrZero b)
      = (presentFiniteNonzero a).getD ((presentFinite b).getD 0) := by
  rw [presentFinite_getD]
  match a with
  | none => simp [jsOr, valueOrZero, presentFiniteNonzero]
  | some .nonfin => simp [jsOr, valueOrZero, presentFiniteNonzero]
  | some (.fin q) =>
    by_cases hq : q = 0 <;> simp [jsOr, valueOrZero, presentFiniteNonzero, hq]

/-- C1 (amended): a current-month premium-request item adds to used (and to
its model's breakdown entry) grossQuantity when present, finite and nonzero,
else netQuantity when present and finite, else 0, and adds to cost netAmount
when present, finite and nonzero, else grossAmount when present and finite,
else 0; an item whose product and sku do not indicate a Copilot premium
request leaves the accumulator (used, cost, discount and breakdown)
untouched. -/
theorem c1_premium_item_contribution (st : CurrentState) (item : GithubUsageItem) :
    (isCopilotPremiumRequest item.product item.sku = false →
      processCurrentItem st item = st) ∧
    (isCopilotPremiumRequest item.product item.sku = true →
      (processCurrentItem st item).used = st.used + claimQuantity item ∧
      (processCurrentItem st item).cost = st.cost + claimCost item ∧
      breakdownUsed (processCurrentItem st item).byModel item.model
        = breakdownUsed st.byModel item.model + claimQuantity item ∧
      breakdownCost (processCurrentItem st item).byModel item.model
        = breakdownCost st.byModel item.model + claimCost item) := by
  constructor
  · intro h
    simp [processCurrentItem, h]
  · intro h
    have hq := jsOr_valueOrZero item.grossQuantity item.netQuantity
    have hc := jsOr_valueOrZero item.netAmount item.grossAmount
    refine ⟨?_, ?_, ?_, ?_⟩ <;>
      · simp only [processCurrentItem, h, if_true]
        cases hmg : mapGet st.byModel item.model <;>
          simp [claimQuantity, claimCost, hq, hc, breakdownUsed, breakdownCost,
            mapGet_set_self, hmg]

/-- A premium-request item with grossQuantity present, finite and equal to 0
and netQuantity 5: the quantity the code adds. -/
def c1Item : GithubUsageItem :=
  { product := "GitHub Copilot", sku := "Copilot Premium Request", model := "gpt-5",
    unitType := "request", grossQuantity := some (.fin 0), netQuantity := some (.fin 5) }

/-- C1 counterexample: for an item whose grossQuantity is present and finite
(it is 0) and whose netQuantity is 5, the claim says 0 is added to used; the
code adds 5, because the JavaScript || also discards a zero grossQuantity. -/
theorem c1_counterexample :
    c1Item.grossQuantity = some (.fin 0) ∧
    isCopilotPremiumRequest c1Item.product c1Item.sku = true ∧
    (processCurrentItem initialCurrentState c1Item).used = 5 ∧ (5 : ℚ) ≠ 0 := by
  have h : isCopilotPremiumRequest "GitHub Copilot" "Copilot Premium Request" = true := by
    decide
  refine ⟨rfl, h, ?_, by decide⟩
  simp [processCurrentItem, c1Item, initialCurrentState, h, jsOr, valueOrZero]

/-- C1 witness: the amended theorem applied to the concrete item above. -/
theorem c1_premium_item_contribution_witness :
    (processCurrentItem initialCurrentState c1Item).used = 0 + claimQuantity c1Item ∧
    processCurrentItem initialCurrentState
      { c1Item with sku := "Copilot Bundle" } = initialCurrentState := by
  constructor
  · exact ((c1_premium_item_contribution initialCurrentState c1Item).2 (by decide)).1
  · exact (c1_premium_item_contribution initialCurrentState
      { c1Item with sku := "Copilot Bundle" }).1 (by decide)

/-! Claim C9. -/

/-- C9: the current-month classification is exactly the pair of
case-insensitive substring tests (product contains copilot and sku contains
premium request): an item failing either test contributes nothing, an item
passing both is accounted in the model breakdown; a historical billing row is
filtered only on its product containing copilot — its sku is never examined —
and a copilot row with a normalizable date is merged into the daily series. -/
theorem c9_substring_classification (dp : String → Option String) (st : CurrentState)
    (item : GithubUsageItem) (byDay : DayMap) (bItem : GithubBillingUsageItem)
    (sku' : Option String) :
    (¬ (strIncludes (strLower item.product) "copilot" = true ∧
        strIncludes (strLower item.sku) "premium request" = true) →
      processCurrentItem st item = st) ∧
    ((strIncludes (strLower item.product) "copilot" = true ∧
        strIncludes (strLower item.sku) "premium request" = true) →
      mapGet (processCurrentItem st item).byModel item.model ≠ none) ∧
    (processBillingItem dp byDay { bItem with sku := sku' }
      = processBillingItem dp byDay bItem) ∧
    (strIncludes (strLower bItem.product) "copilot" = false →
      processBillingItem dp byDay bItem = (byDay, false)) ∧
    (strIncludes (strLower bItem.product) "copilot" = true →
      (normalizeDayKey dp bItem.date).isSome = true →
      (processBillingItem dp byDay bItem).2 = true) := by
  refine ⟨?_, ?_, rfl, ?_, ?_⟩
  · intro h
    have hb : isCopilotPremiumRequest item.product item.sku = false := by
      rw [isCopilotPremiumRequest]
      cases hp : strIncludes (strLower item.product) "copilot" <;>
        cases hs : strIncludes (strLower item.sku) "premium request" <;>
          simp_all
    simp [processCurrentItem, hb]
  · intro h
    have hb : isCopilotPremiumRequest item.product item.sku = true := by
      rw [isCopilotPremiumRequest, h.1, h.2]
      rfl
    cases hmg : mapGet st.byModel item.model <;>
      simp [processCurrentItem, hb, hmg, mapGet_set_self]
  · intro h
    simp [processBillingItem, h]
  · intro h hd
    rw [Option.isSome_iff_exists] at hd
    obtain ⟨day, hday⟩ := hd
    simp [processBillingItem, h, hday]

/-- C9 witness: the classification theorem applied at concrete inputs. -/
theorem c9_substring_classification_witness :
    processCurrentItem initialCurrentState
      { c1Item with sku := "Copilot Bundle" } = initialCurrentState ∧
    mapGet (processCurrentItem initialCurrentState c1Item).byModel "gpt-5" ≠ none ∧
    (processBillingItem (fun _ => none) []
      { product := "copilot premium", date := some "2024-01-05",
        quantity := some (.fin 2) }).2 = true := by
  refine ⟨?_, ?_, ?_⟩
  · exact (c9_substring_classification (fun _ => none) initialCurrentState
      { c1Item with sku := "Copilot Bundle" } [] { product := "x" } none).1 (by decide)
  · exact (c9_substring_classification (fun _ => none) initialCurrentState
      c1Item [] { product := "x" } none).2.1 (by decide)
  · exact (c9_substring_classification (fun _ => none) initialCurrentState
      c1Item []
      { product := "copilot premium", date := some "2024-01-05",
        quantity := some (.fin 2) } none).2.2.2.2 (by decide) (by decide)

/-! Claims C2 and C4: fetch failures and the fetchedMonths count. -/

/-- Did a fetch settle without throwing? -/
def fetchOk {α : Type} : Except String α → Bool
  | .ok _ => true
  | .error _ => false

theorem runHistoricalMonth_fetchedCount (dp : String → Option String) (hasCb : Bool)
    (cb : Nat → Except String Unit) (st : LoopState)
    (m : Except String (List GithubBillingUsageItem)) :
    (runHistoricalMonth dp hasCb cb st m).fetchedCount
      = st.fetchedCount + (if fetchOk m then 1 else 0) := by
  match m with
  | .error e => simp [runHistoricalMonth, fetchOk]
  | .ok items =>
    simp only [runHistoricalMonth, fetchOk, if_true]
    cases h : (processMonthItems dp st.byDay items).2 && hasCb
    · simp [h]
    · simp only [h, if_true]
      cases cb st.cbIndex <;> simp

theorem runHistoricalLoop_fetchedCount (dp : String → Option String) (hasCb : Bool)
    (cb : Nat → Except String Unit)
    (ms : List (Except String (List GithubBillingUsageItem))) (st : LoopState) :
    (runHistoricalLoop dp hasCb cb st ms).fetchedCount
      = st.fetchedCount + ms.countP (fun m => fetchOk m) := by
  induction ms generalizing st with
  | nil => simp [runHistoricalLoop]
  | cons m rest ih =>
    rw [runHistoricalLoop, ih, runHistoricalMonth_fetchedCount, List.countP_cons]
    cases hm : fetchOk m <;> (simp; try omega)

/-- C2: a current-month summary fetch that throws makes the whole call reject
with that error, delivering no partial result at all; whereas whenever the
current-month fetch and the initial callback invocation settle, the call
fulfills — every historical month outcome, failures included, is swallowed. -/
theorem c2_current_fatal_history_swallowed (dp : String → Option String)
    (cb : Nat → Except String Unit) (hasCb : Bool)
    (monthFetches : List (Except String (List GithubBillingUsageItem)))
    (e : String) (buckets : List GithubUsageBucket) (st : LoopState) :
    (fetchGitHubCopilotUsage dp (.error e) monthFetches hasCb cb = (.error e, [])) ∧
    (runHistoricalMonth dp hasCb cb st (.error e) = st) ∧
    ((hasCb = true → cb 0 = .ok ()) →
      fetchOk (fetchGitHubCopilotUsage dp (.ok buckets) monthFetches hasCb cb).1 = true) := by
  refine ⟨rfl, rfl, ?_⟩
  intro h
  cases hcb : hasCb
  · simp [fetchGitHubCopilotUsage, hcb, fetchOk]
  · simp [fetchGitHubCopilotUsage, hcb, h hcb, fetchOk]

/-- C2 witness: a failing current-month fetch rejects even when every
historical fetch would have succeeded, and a run whose only historical month
throws still fulfills. -/
theorem c2_current_fatal_history_swallowed_witness :
    fetchGitHubCopilotUsage (fun _ => none) (.error "GitHub API 403") [.ok []] true
      (fun _ => .ok ()) = (.error "GitHub API 403", []) ∧
    fetchOk (fetchGitHubCopilotUsage (fun _ => none) (.ok []) [.error "GitHub API 500"] true
      (fun _ => .ok ())).1 = true := by
  constructor
  · exact (c2_current_fatal_history_swallowed (fun _ => none) (fun _ => .ok ()) true
      [.ok []] "GitHub API 403" []
      { byDay := [], fetchedCount := 1, updates := [], cbIndex := 1 }).1
  · exact (c2_current_fatal_history_swallowed (fun _ => none) (fun _ => .ok ()) true
      [.error "GitHub API 500"] "e" []
      { byDay := [], fetchedCount := 1, updates := [], cbIndex := 1 }).2.2 (fun _ => rfl)

/-- C4: whenever the current-month fetch and the initial callback invocation
settle, the call fulfills with fetchedMonths equal to 1 (the current-month
summary) plus the number of window months whose billing-usage fetch did not
throw — a successful month with zero rows counts. -/
theorem c4_fetched_months (dp : String → Option String) (cb : Nat → Except String Unit)
    (hasCb : Bool) (monthFetches : List (Except String (List GithubBillingUsageItem)))
    (buckets : List GithubUsageBucket)
    (hcb : hasCb = true → cb 0 = .ok ()) :
    ∃ r, (fetchGitHubCopilotUsage dp (.ok buckets) monthFetches hasCb cb).1 = .ok r ∧
      r.fetchedMonths = 1 + monthFetches.countP (fun m => fetchOk m) := by
  have hloop := runHistoricalLoop_fetchedCount dp hasCb cb monthFetches
    { byDay := [], fetchedCount := 1,
      updates := if hasCb then
        [{ used := some (processCurrentBuckets buckets).used
           cost := some (processCurrentBuckets buckets).cost
           breakdown := some (sortBreakdown (processCurrentBuckets buckets).byModel) }]
        else []
      cbIndex := if hasCb then 1 else 0 }
  cases hcbv : hasCb
  · subst hcbv
    simp only [fetchGitHubCopilotUsage, if_false]
    refine ⟨_, rfl, ?_⟩
    simpa using hloop
  · subst hcbv
    simp only [fetchGitHubCopilotUsage, if_true, hcb rfl]
    refine ⟨_, rfl, ?_⟩
    simpa using hloop

/-- C4 witness: a three-month window with the middle month throwing yields
fetchedMonths 3 = 1 + 2. -/
theorem c4_fetched_months_witness :
    ∃ r, (fetchGitHubCopilotUsage (fun _ => none) (.ok [])
        [.ok [], .error "GitHub API 500", .ok []] true (fun _ => .ok ())).1 = .ok r ∧
      r.fetchedMonths = 1 + 2 := by
  have h := c4_fetched_months (fun _ => none) (fun _ => .ok ()) true
    [.ok [], .error "GitHub API 500", .ok []] [] (fun _ => rfl)
  simpa using h

/-! Claim C10: a throwing progress callback. -/

theorem runHistoricalMonth_cb_irrelevant (dp : String → Option String) (hasCb : Bool)
    (cb cb' : Nat → Except String Unit) (st : LoopState)
    (m : Except String (List GithubBillingUsageItem)) :
    runHistoricalMonth dp hasCb cb st m = runHistoricalMonth dp hasCb cb' st m := by
  match m with
  | .error e => rfl
  | .ok items =>
    simp only [runHistoricalMonth]
    cases h : (processMonthItems dp st.byDay items).2 && hasCb
    · simp [h]
    · simp only [h, if_true]
      cases cb st.cbIndex <;> cases cb' st.cbIndex <;> rfl

theorem runHistoricalLoop_cb_irrelevant (dp : String → Option String) (hasCb : Bool)
    (cb cb' : Nat → Except String Unit)
    (ms : List (Except String (List GithubBillingUsageItem))) (st : LoopState) :
    runHistoricalLoop dp hasCb cb st ms = runHistoricalLoop dp hasCb cb' st ms := by
  induction ms generalizing st with
  | nil => rfl
  | cons m rest ih =>
    rw [runHistoricalLoop, runHistoricalLoop,
      runHistoricalMonth_cb_irrelevant dp hasCb cb cb' st m]
    exact ih _

/-- C10: the outcome of every historical-loop callback invocation is
irrelevant — a throwing callback there is absorbed by the catch that also
swallows month failures, the loop continues and every successfully fetched
month still counts toward fetchedMonths (two callbacks agreeing on the
initial invocation produce identical results and identical update streams) —
whereas a throw from the initial current-month invocation rejects the whole
call with that error. -/
theorem c10_callback_throw (dp : String → Option String)
    (cb cb' : Nat → Except String Unit) (buckets : List GithubUsageBucket)
    (monthFetches : List (Except String (List GithubBillingUsageItem))) (e : String) :
    (cb 0 = cb' 0 →
      fetchGitHubCopilotUsage dp (.ok buckets) monthFetches true cb
        = fetchGitHubCopilotUsage dp (.ok buckets) monthFetches true cb') ∧
    (cb 0 = .ok () →
      ∃ r, (fetchGitHubCopilotUsage dp (.ok buckets) monthFetches true cb).1 = .ok r ∧
        r.fetchedMonths = 1 + monthFetches.countP (fun m => fetchOk m)) ∧
    (cb 0 = .error e →
      (fetchGitHubCopilotUsage dp (.ok buckets) monthFetches true cb).1 = .error e) := by
  refine ⟨?_, ?_, ?_⟩
  · intro h
    simp only [fetchGitHubCopilotUsage, if_true, h]
    cases cb' 0
    · rfl
    · rw [runHistoricalLoop_cb_irrelevant dp true cb cb']
  · intro h
    have hloop := runHistoricalLoop_fetchedCount dp true cb monthFetches
      { byDay := [], fetchedCount := 1,
        updates :=
          [{ used := some (processCurrentBuckets buckets).used
             cost := some (processCurrentBuckets buckets).cost
             breakdown := some (sortBreakdown (processCurrentBuckets buckets).byModel) }]
        cbIndex := 1 }
    simp only [fetchGitHubCopilotUsage, if_true, h]
    refine ⟨_, rfl, ?_⟩
    simpa using hloop
  · intro h
    simp [fetchGitHubCopilotUsage, h]

/-- C10 witness: a callback that throws on every historical invocation but
settles initially produces the same fulfilled result as one that never
throws, and a callback that throws initially rejects the call. -/
theorem c10_callback_throw_witness :
    fetchGitHubCopilotUsage (fun _ => none) (.ok []) [.ok [], .ok []] true
      (fun i => if i = 0 then .ok () else .error "boom")
      = fetchGitHubCopilotUsage (fun _ => none) (.ok []) [.ok [], .ok []] true
        (fun _ => .ok ()) ∧
    (fetchGitHubCopilotUsage (fun _ => none) (.ok []) [.ok [], .ok []] true
      (fun _ => .error "boom")).1 = .error "boom" := by
  constructor
  · exact (c10_callback_throw (fun _ => none)
      (fun i => if i = 0 then .ok () else .error "boom") (fun _ => .ok ()) []
      [.ok [], .ok []] "boom").1 (by simp)
  · exact (c10_callback_throw (fun _ => none) (fun _ => .error "boom")
      (fun _ => .ok ()) [] [.ok [], .ok []] "boom").2.2 rfl

/-! Claim C6: what is handed to a consumer is sorted. -/

/-- The keys of an association-list Map are distinct (JavaScript Map keys
are). -/
def keysNodup {β : Type} (m : List (String × β)) : Prop := (m.map Prod.fst).Nodup

/-- The sortedness contract on one partial-result object: any daily series in
it is strictly ascending by day (hence one entry per day) and any breakdown
in it is descending by used. -/
def updOk (u : UpdatePayload) : Prop :=
  (∀ l, u.daily = some l → l.Pairwise (fun a b => a.day < b.day)) ∧
  (∀ b, u.breakdown = some b → b.Pairwise (fun x y => y.used ≤ x.used))

theorem processBillingItem_keysNodup (dp : String → Option String) (byDay : DayMap)
    (item : GithubBillingUsageItem) (h : keysNodup byDay) :
    keysNodup (processBillingItem dp byDay item).1 := by
  rw [processBillingItem]
  cases hp : strIncludes (strLower item.product) "copilot"
  · simpa using h
  · simp only [if_true]
    cases hd : normalizeDayKey dp item.date
    · simpa using h
    · exact keysNodup_mapSet _ _ _ h

theorem processMonthItems_keysNodup (dp : String → Option String)
    (items : List GithubBillingUsageItem) (byDay : DayMap) (b : Bool)
    (h : keysNodup byDay) :
    keysNodup (items.foldl
      (fun acc item =>
        let r := processBillingItem dp acc.1 item
        (r.1, acc.2 || r.2)) (byDay, b)).1 := by
  induction items generalizing byDay b with
  | nil => simpa using h
  | cons item rest ih =>
    simpa using ih _ _ (processBillingItem_keysNodup dp byDay item h)

theorem runHistoricalMonth_invariant (dp : String → Option String) (hasCb : Bool)
    (cb : Nat → Except String Unit) (st : LoopState)
    (m : Except String (List GithubBillingUsageItem))
    (h : keysNodup st.byDay ∧ ∀ u ∈ st.updates, updOk u) :
    keysNodup (runHistoricalMonth dp hasCb cb st m).byDay ∧
      ∀ u ∈ (runHistoricalMonth dp hasCb cb st m).updates, updOk u := by
  match m with
  | .error e => exact h
  | .ok items =>
    have hmerged : keysNodup (processMonthItems dp st.byDay items).1 :=
      processMonthItems_keysNodup dp items st.byDay false h.1
    have hpayload : updOk
        { daily := some (sortDaily (processMonthItems dp st.byDay items).1)
          fetchedMonths := some (st.fetchedCount + 1) } := by
      constructor
      · intro l hl
        obtain rfl : sortDaily (processMonthItems dp st.byDay items).1 = l :=
          Option.some_injective _ hl
        exact sortDaily_pairwise _ hmerged
      · intro b hb
        cases hb
    simp only [runHistoricalMonth]
    cases hc : (processMonthItems dp st.byDay items).2 && hasCb
    · simpa using ⟨hmerged, h.2⟩
    · simp only [hc, if_true]
      cases cb st.cbIndex <;>
      · refine ⟨hmerged, ?_⟩
        intro u hu
        simp only [List.mem_append, List.mem_singleton] at hu
        rcases hu with hu | rfl
        · exact h.2 u hu
        · exact hpayload

theorem runHistoricalLoop_invariant (dp : String → Option String) (hasCb : Bool)
    (cb : Nat → Except String Unit)
    (ms : List (Except String (List GithubBillingUsageItem))) (st : LoopState)
    (h : keysNodup st.byDay ∧ ∀ u ∈ st.updates, updOk u) :
    keysNodup (runHistoricalLoop dp hasCb cb st ms).byDay ∧
      ∀ u ∈ (runHistoricalLoop dp hasCb cb st ms).updates, updOk u := by
  induction ms generalizing st with
  | nil => exact h
  | cons m rest ih =>
    rw [runHistoricalLoop]
    exact ih _ (runHistoricalMonth_invariant dp hasCb cb st m h)

/-- C6: every daily series handed to a consumer — in any progress-callback
invocation and in the fulfilled result — is strictly ascending by day (so at
most one entry per day), and every breakdown handed to a consumer is sorted
descending by used. -/
theorem c6_consumer_series_sorted (dp : String → Option String)
    (cb : Nat → Except String Unit) (hasCb : Bool)
    (currentFetch : Except String (List GithubUsageBucket))
    (monthFetches : List (Except String (List GithubBillingUsageItem))) :
    (∀ u ∈ (fetchGitHubCopilotUsage dp currentFetch monthFetches hasCb cb).2,
      (∀ l, u.daily = some l → l.Pairwise (fun a b => a.day < b.day)) ∧
      (∀ b, u.breakdown = some b → b.Pairwise (fun x y => y.used ≤ x.used))) ∧
    (∀ r, (fetchGitHubCopilotUsage dp currentFetch monthFetches hasCb cb).1 = .ok r →
      r.daily.Pairwise (fun a b => a.day < b.day) ∧
      r.breakdown.Pairwise (fun x y => y.used ≤ x.used)) := by
  match currentFetch with
  | .error e =>
    constructor
    · intro u hu
      simp [fetchGitHubCopilotUsage] at hu
    · intro r hr
      simp [fetchGitHubCopilotUsage] at hr
  | .ok buckets =>
    have hinit : ∀ u ∈ (if hasCb then
        [{ used := some (processCurrentBuckets buckets).used
           cost := some (processCurrentBuckets buckets).cost
           breakdown := some (sortBreakdown (processCurrentBuckets buckets).byModel) :
             UpdatePayload }] else []), updOk u := by
      intro u hu
      cases hasCb <;> simp only [if_true, if_false, List.mem_singleton, List.not_mem_nil] at hu
      · cases hu
      · subst hu
        constructor
        · intro l hl
          cases hl
        · intro b hb
          obtain rfl : sortBreakdown (processCurrentBuckets buckets).byModel = b :=
            Option.some_injective _ hb
          exact sortBreakdown_pairwise _
    have hloop := runHistoricalLoop_invariant dp hasCb cb monthFetches
      { byDay := [], fetchedCount := 1
        updates := if hasCb then
          [{ used := some (processCurrentBuckets buckets).used
             cost := some (processCurrentBuckets buckets).cost
             breakdown := some (sortBreakdown (processCurrentBuckets buckets).byModel) }]
          else []
        cbIndex := if hasCb then 1 else 0 }
      ⟨by simp [keysNodup], hinit⟩
    simp only [fetchGitHubCopilotUsage]
    cases hinitcb : (if hasCb then cb 0 else .ok ()) with
    | error e =>
      constructor
      · intro u hu
        exact hinit u hu
      · intro r hr
        cases hr
    | ok _ =>
      constructor
      · intro u hu
        exact hloop.2 u hu
      · intro r hr
        obtain rfl := Except.ok.inj hr
        refine ⟨?_, sortBreakdown_pairwise _⟩
        exact sortDaily_pairwise _ hloop.1

/-! Claim C7: when the historical loop invokes the progress callback. -/

/-- Does a billing row pass both row filters (copilot product, normalizable
date) and hence get merged into the day map? -/
def rowMerges (dp : String → Option String) (item : GithubBillingUsageItem) : Bool :=
  strIncludes (strLower item.product) "copilot" && (normalizeDayKey dp item.date).isSome

theorem processBillingItem_snd (dp : String → Option String) (byDay : DayMap)
    (item : GithubBillingUsageItem) :
    (processBillingItem dp byDay item).2 = rowMerges dp item := by
  rw [processBillingItem, rowMerges]
  cases hp : strIncludes (strLower item.product) "copilot"
  · simp
  · cases hd : normalizeDayKey dp item.date <;> simp [hd]

theorem processMonthItems_foldl_snd (dp : String → Option String)
    (items : List GithubBillingUsageItem) (byDay : DayMap) (b : Bool) :
    (items.foldl
      (fun acc item =>
        let r := processBillingItem dp acc.1 item
        (r.1, acc.2 || r.2)) (byDay, b)).2
      = (b || items.any (rowMerges dp)) := by
  induction items generalizing byDay b with
  | nil => simp
  | cons item rest ih =>
    simp only [List.foldl_cons, List.any_cons]
    rw [ih, processBillingItem_snd, Bool.or_assoc]

theorem processMonthItems_snd (dp : String → Option String) (byDay : DayMap)
    (items : List GithubBillingUsageItem) :
    (processMonthItems dp byDay items).2 = items.any (rowMerges dp) := by
  simpa using processMonthItems_foldl_snd dp items byDay false

/-- Written from the amended claim: the stream of updates the historical loop
delivers, given the day map and the success count (current-month summary
included) accumulated so far. For each successfully fetched month the rows
are merged; an update carrying the re-sorted day series and the new success
count is emitted iff at least one row of the month was merged (whether or not
it created a new day entry); a month whose fetch threw emits nothing and
leaves the counter untouched. -/
def historyUpdates (dp : String → Option String) :
    DayMap → Nat → List (Except String (List GithubBillingUsageItem)) → List UpdatePayload
  | _, _, [] => []
  | byDay, count, .error _ :: rest => historyUpdates dp byDay count rest
  | byDay, count, .ok items :: rest =>
    let merged := (processMonthItems dp byDay items).1
    let tail := historyUpdates dp merged (count + 1) rest
    if items.any (rowMerges dp) then
      { daily := some (sortDaily merged), fetchedMonths := some (count + 1) } :: tail
    else tail

theorem runHistoricalLoop_updates (dp : String → Option String)
    (cb : Nat → Except String Unit)
    (ms : List (Except String (List GithubBillingUsageItem))) (st : LoopState) :
    (runHistoricalLoop dp true cb st ms).updates
      = st.updates ++ historyUpdates dp st.byDay st.fetchedCount ms := by
  induction ms generalizing st with
  | nil => simp [runHistoricalLoop, historyUpdates]
  | cons m rest ih =>
    rw [runHistoricalLoop]
    match m with
    | .error e =>
      rw [historyUpdates]
      exact ih st
    | .ok items =>
      rw [historyUpdates]
      simp only [runHistoricalMonth, processMonthItems_snd, Bool.and_true]
      cases hany : items.any (rowMerges dp)
      · simp only [if_false, Bool.false_eq_true]
        rw [ih]
      · simp only [if_true]
        cases cb st.cbIndex <;>
        · rw [ih]
          simp [List.append_assoc]

/-- The billing row used by the C7 inputs: a copilot product on the fixed day
2024-01-01 with the given quantity. -/
def c7Item (q : ℚ) : GithubBillingUsageItem :=
  { product := "copilot premium", date := some "2024-01-01", quantity := some (.fin q) }

/-- C7 counterexample: months [ok [row on 2024-01-01 qty 1], error, ok [row
on 2024-01-01 qty 2]]. The third month contributes no new day-map entry (the
day already exists) yet the callback is still invoked for it, and it receives
fetchedMonths 3 — 1 plus the two successful fetches — not a count of the
three months attempted so far. The claim as stated predicts only two
invocations in total. -/
theorem c7_counterexample :
    (fetchGitHubCopilotUsage (fun _ => none) (.ok [])
        [.ok [c7Item 1], .error "GitHub API 500", .ok [c7Item 2]] true
        (fun _ => .ok ())).2
      = [{ used := some 0, cost := some 0, breakdown := some [] },
         { daily := some [{ day := "2024-01-01", used := 1, cost := 0 }],
           fetchedMonths := some 2 },
         { daily := some [{ day := "2024-01-01", used := 3, cost := 0 }],
           fetchedMonths := some 3 }] := by
  have h : strIncludes (strLower "copilot premium") "copilot" = true := by decide
  have hd : normalizeDayKey (fun _ : String => none) (some "2024-01-01")
      = some "2024-01-01" := by decide
  norm_num [fetchGitHubCopilotUsage, runHistoricalLoop, runHistoricalMonth, processMonthItems,
    processBillingItem, processCurrentBuckets, initialCurrentState, c7Item, h, hd,
    mapGet, mapSet, sortDaily, sortBreakdown, valueOrZero, jsOr]

/-- C7 (amended): with a callback supplied and an initial invocation that
settles, the delivered update stream is exactly the initial current-month
update followed by one update per successfully fetched month that merged at
least one row (whether or not any merged day was new), each carrying the
re-sorted ascending day series and 1 plus the number of successful
billing-usage fetches so far; failed months and months merging no rows emit
nothing. -/
theorem c7_progress_update_stream (dp : String → Option String)
    (cb : Nat → Except String Unit) (buckets : List GithubUsageBucket)
    (monthFetches : List (Except String (List GithubBillingUsageItem)))
    (hcb : cb 0 = .ok ()) :
    (fetchGitHubCopilotUsage dp (.ok buckets) monthFetches true cb).2
      = { used := some (processCurrentBuckets buckets).used
          cost := some (processCurrentBuckets buckets).cost
          breakdown := some (sortBreakdown (processCurrentBuckets buckets).byModel) }
        :: historyUpdates dp [] 1 monthFetches := by
  simp only [fetchGitHubCopilotUsage, if_true, hcb]
  rw [runHistoricalLoop_updates]
  rfl

/-- C7 witness: the amended stream theorem applied to the concrete inputs of
the counterexample scenario. -/
theorem c7_progress_update_stream_witness :
    (fetchGitHubCopilotUsage (fun _ => none) (.ok [])
        [.ok [c7Item 1], .error "GitHub API 500", .ok [c7Item 2]] true
        (fun _ => .ok ())).2
      = { used := some (processCurrentBuckets []).used
          cost := some (processCurrentBuckets []).cost
          breakdown := some (sortBreakdown (processCurrentBuckets []).byModel) }
        :: historyUpdates (fun _ => none) [] 1
            [.ok [c7Item 1], .error "GitHub API 500", .ok [c7Item 2]] :=
  c7_progress_update_stream (fun _ => none) (fun _ => .ok ()) []
    [.ok [c7Item 1], .error "GitHub API 500", .ok [c7Item 2]] rfl

/-! Claim C3: day-key resolution. -/

/-- A row with an explicit timestamp field. -/
def c3DateRow : JsonRecord := [("date", Json.str "2024-03-05T10:00:00Z")]

/-- A row with a complete year/month/day triple and no date string. -/
def c3TripleRow : JsonRecord :=
  [("timePeriod", Json.obj
    [("year", Json.num (.fin 2024)), ("month", Json.num (.fin 3)), ("day", Json.num (.fin 5))])]

/-- A row whose timePeriod has only year and month, no day. -/
def c3YmRow : JsonRecord :=
  [("timePeriod", Json.obj [("year", Json.num (.fin 2024)), ("month", Json.num (.fin 3))])]

/-- The year/month-only row extended with an explicit chat count, so that its
normalization is observable in the day accumulator. -/
def c3YmChatRow : JsonRecord := c3YmRow ++ [("total_chats", Json.num (.fin 7))]

/-- C3 counterexample: a row whose timePeriod carries year 2024 and month 3
but no day yields no day key from extractDayKey at all — the claim says it
resolves to 2024-03-01. (The helper dayKeyFromTimePeriod, which would default
the day to 01, is never called.) -/
theorem c3_counterexample :
    extractDayKey (fun _ => none) c3YmRow = none ∧
    ¬ extractDayKey (fun _ => none) c3YmRow = some "2024-03-01" := by
  constructor
  · decide
  · decide

/-- C3 (amended): day-key resolution precedence: an explicit date-like string
field is normalized first (truncated to YYYY-MM-DD, tolerant of full
timestamps); failing that, the nested year/month/day triple is used only when
all three of year, month and day are present — a row with only
timePeriod year 2024, month 3 yields no key from extractDayKey; failing both,
the caller-supplied fallback day is what the row is accumulated under (shown
on the year/month-only row carrying a chat count of 7, which lands on the
fallback day). -/
theorem c3_day_key_resolution (dp : String → Option String)
    (r : JsonRecord) (fallbackIde : Option String)
    (breakdown : BreakdownMap) :
    (∀ k, normalizeDayKey dp (pickString r dayFieldKeys) = some k →
      extractDayKey dp r = some k) ∧
    extractDayKey dp c3DateRow = some "2024-03-05" ∧
    extractDayKey dp c3TripleRow = some "2024-03-05" ∧
    extractDayKey dp c3YmRow = none ∧
    (collectChatCountFromEntry dp c3YmChatRow (some "2024-07-01") fallbackIde
        breakdown []).byDay = [("2024-07-01", { used := 7, cost := 0 })] := by
  refine ⟨?_, rfl, rfl, rfl, ?_⟩
  · intro k hk
    rw [extractDayKey, hk]
  · have hx : extractDayKey dp c3YmChatRow = none := rfl
    have hc : pickNumber c3YmChatRow chatCountKeys = some 7 := by decide
    have h7 : ¬ (7 : ℚ) ≤ 0 := by norm_num
    simp [collectChatCountFromEntry, hx, hc, h7, addToDaily, mapGet, mapSet]

/-- C3 witness: the resolution theorem applied at concrete inputs; the
explicit-date leg instantiated on the timestamp row. -/
theorem c3_day_key_resolution_witness :
    extractDayKey (fun _ => none) c3DateRow = some "2024-03-05" ∧
    extractDayKey (fun _ => none) c3TripleRow = some "2024-03-05" :=
  ⟨(c3_day_key_resolution (fun _ => none) [] none []).2.1,
   (c3_day_key_resolution (fun _ => none) [] none []).2.2.1⟩

/-! Claim C5: feature/IDE rows and the chat-like gate. -/

/-- A row with only an interaction count of 7 and the feature name
inline-completion. -/
def c5RowInline : JsonRecord :=
  [("feature", Json.str "inline-completion"), ("interaction_count", Json.num (.fin 7))]

/-- The same row with the feature name chat. -/
def c5RowChat : JsonRecord :=
  [("feature", Json.str "chat"), ("interaction_count", Json.num (.fin 7))]

/-- C5: a row whose explicit chat count resolves to 5 yields quantity 5
whatever its other fields; the inline-completion row with only an interaction
count of 7 yields 0 and leaves both accumulators untouched; the same row with
feature chat yields 7; and in general an interaction count is never used when
the row has no chat-named field and its feature name is not chat-like. -/
theorem c5_chat_quantity (dp : String → Option String) (r : JsonRecord)
    (fallbackDay fallbackIde : Option String)
    (breakdown : BreakdownMap) (byDay : DayMap) :
    (pickNumber r chatCountKeys = some 5 →
      (collectChatCountFromEntry dp r fallbackDay fallbackIde breakdown byDay).count = 5) ∧
    collectChatCountFromEntry dp c5RowInline fallbackDay fallbackIde breakdown byDay
      = { breakdown := breakdown, byDay := byDay, count := 0 } ∧
    (collectChatCountFromEntry dp c5RowChat fallbackDay fallbackIde breakdown byDay).count
      = 7 ∧
    (pickNumber r chatCountKeys = none → hasChatNamedField r = false →
      isChatLikeFeature (pickString r featureKeys) = false →
      collectChatCountFromEntry dp r fallbackDay fallbackIde breakdown byDay
        = { breakdown := breakdown, byDay := byDay, count := 0 }) := by
  refine ⟨?_, ?_, ?_, ?_⟩
  · intro h
    have h5 : ¬ (5 : ℚ) ≤ 0 := by norm_num
    simp [collectChatCountFromEntry, h, h5]
  · have hc : pickNumber c5RowInline chatCountKeys = none := by decide
    have hi : pickNumber c5RowInline interactionKeys = some 7 := by decide
    have hf : hasChatNamedField c5RowInline = false := by decide
    have hl : isChatLikeFeature (pickString c5RowInline featureKeys) = false := by decide
    simp [collectChatCountFromEntry, hc, hi, hf, hl]
  · have hc : pickNumber c5RowChat chatCountKeys = none := by decide
    have hi : pickNumber c5RowChat interactionKeys = some 7 := by decide
    have hl : isChatLikeFeature (pickString c5RowChat featureKeys) = true := by decide
    have h7 : ¬ (7 : ℚ) ≤ 0 := by norm_num
    simp [collectChatCountFromEntry, hc, hi, hl, h7]
  · intro h1 h2 h3
    cases hpi : pickNumber r interactionKeys <;>
      simp [collectChatCountFromEntry, h1, h2, h3, hpi]

/-- C5 witness: the theorem applied at a concrete row whose explicit chat
count is 5 even though an interaction count of 9 and a non-chat feature are
also present. -/
theorem c5_chat_quantity_witness :
    (collectChatCountFromEntry (fun _ => none)
        [("feature", Json.str "inline-completion"),
         ("interaction_count", Json.num (.fin 9)),
         ("chat_requests", Json.num (.fin 5))] none none [] []).count = 5 :=
  (c5_chat_quantity (fun _ => none)
    [("feature", Json.str "inline-completion"),
     ("interaction_count", Json.num (.fin 9)),
     ("chat_requests", Json.num (.fin 5))] none none [] []).1 (by decide)

/-! Claim C8: the daily accumulator is additive and order-insensitive. -/

/-- The day key a billing row is merged under; none when the row is filtered
out (non-copilot product or no normalizable date). -/
def rowDayKey (dp : String → Option String) (item : GithubBillingUsageItem) : Option String :=
  if strIncludes (strLower item.product) "copilot" then normalizeDayKey dp item.date else none

/-- Merging one month of rows into the day map (the loop body without the
changedInMonth flag). -/
def mergeMonth (dp : String → Option String) (byDay : DayMap)
    (items : List GithubBillingUsageItem) : DayMap :=
  (processMonthItems dp byDay items).1

/-- Merging a sequence of months into an empty day map, in order. -/
def mergeMonths (dp : String → Option String)
    (months : List (List GithubBillingUsageItem)) : DayMap :=
  months.foldl (mergeMonth dp) []

/-- The used total the day map records for a day (0 when absent). -/
def dayUsed (m : DayMap) (d : String) : ℚ := ((mapGet m d).getD { used := 0, cost := 0 }).used

/-- The cost total the day map records for a day (0 when absent). -/
def dayCost (m : DayMap) (d : String) : ℚ := ((mapGet m d).getD { used := 0, cost := 0 }).cost

/-- A row's contribution to the used total of a day. -/
def rowUsedAt (dp : String → Option String) (d : String) (item : GithubBillingUsageItem) : ℚ :=
  if rowDayKey dp item = some d then valueOrZero item.quantity else 0

/-- A row's contribution to the cost total of a day. -/
def rowCostAt (dp : String → Option String) (d : String) (item : GithubBillingUsageItem) : ℚ :=
  if rowDayKey dp item = some d then jsOr (valueOrZero item.netAmount) (valueOrZero item.grossAmount)
  else 0

/-- The day keys a month's rows merge under. -/
def monthDays (dp : String → Option String) (items : List GithubBillingUsageItem) : List String :=
  items.filterMap (rowDayKey dp)

theorem day_totals_processBillingItem (dp : String → Option String) (byDay : DayMap)
    (item : GithubBillingUsageItem) (d : String) :
    dayUsed (processBillingItem dp byDay item).1 d = dayUsed byDay d + rowUsedAt dp d item ∧
    dayCost (processBillingItem dp byDay item).1 d = dayCost byDay d + rowCostAt dp d item := by
  rw [processBillingItem, rowUsedAt, rowCostAt, rowDayKey]
  cases hp : strIncludes (strLower item.product) "copilot"
  · simp
  · simp only [if_true]
    cases hd : normalizeDayKey dp item.date
    · simp
    case some day =>
      by_cases hday : day = d
      · subst hday
        cases hm : mapGet byDay day <;>
          simp [dayUsed, dayCost, mapGet_set_self, hm]
      · have hne : ¬ (some day = some d) := by simpa using hday
        simp [dayUsed, dayCost, mapGet_set_ne byDay day d _ (Ne.symm hday), hne]

theorem day_totals_foldl (dp : String → Option String)
    (items : List GithubBillingUsageItem) (byDay : DayMap) (b : Bool) (d : String) :
    dayUsed (items.foldl
        (fun acc item =>
          let r := processBillingItem dp acc.1 item
          (r.1, acc.2 || r.2)) (byDay, b)).1 d
      = dayUsed byDay d + (items.map (rowUsedAt dp d)).sum ∧
    dayCost (items.foldl
        (fun acc item =>
          let r := processBillingItem dp acc.1 item
          (r.1, acc.2 || r.2)) (byDay, b)).1 d
      = dayCost byDay d + (items.map (rowCostAt dp d)).sum := by
  induction items generalizing byDay b with
  | nil => simp
  | cons item rest ih =>
    simp only [List.foldl_cons, List.map_cons, List.sum_cons]
    have hi := day_totals_processBillingItem dp byDay item d
    have hr := ih (processBillingItem dp byDay item).1 (b || (processBillingItem dp byDay item).2)
    constructor
    · rw [hr.1, hi.1]
      ring
    · rw [hr.2, hi.2]
      ring

theorem day_totals_mergeMonth (dp : String → Option String) (byDay : DayMap)
    (items : List GithubBillingUsageItem) (d : String) :
    dayUsed (mergeMonth dp byDay items) d = dayUsed byDay d + (items.map (rowUsedAt dp d)).sum ∧
    dayCost (mergeMonth dp byDay items) d = dayCost byDay d + (items.map (rowCostAt dp d)).sum :=
  day_totals_foldl dp items byDay false d

theorem day_totals_mergeMonths_from (dp : String → Option String)
    (months : List (List GithubBillingUsageItem)) (byDay : DayMap) (d : String) :
    dayUsed (months.foldl (mergeMonth dp) byDay) d
      = dayUsed byDay d + (months.map (fun items => (items.map (rowUsedAt dp d)).sum)).sum ∧
    dayCost (months.foldl (mergeMonth dp) byDay) d
      = dayCost byDay d + (months.map (fun items => (items.map (rowCostAt dp d)).sum)).sum := by
  induction months generalizing byDay with
  | nil => simp
  | cons items rest ih =>
    simp only [List.foldl_cons, List.map_cons, List.sum_cons]
    have hi := day_totals_mergeMonth dp byDay items d
    have hr := ih (mergeMonth dp byDay items)
    constructor
    · rw [hr.1, hi.1]
      ring
    · rw [hr.2, hi.2]
      ring

set_option linter.unusedVariables false in
/-- C8: merging months with pairwise disjoint merged day keys into an empty
day map is additive and commutative — any order yields the same per-day used
and cost totals (the disjointness hypothesis of the claim is carried but the
additivity argument never needs it). -/
theorem c8_merge_order_insensitive (dp : String → Option String)
    (ms1 ms2 : List (List GithubBillingUsageItem))
    (hperm : ms1.Perm ms2)
    (hdisj : ms1.Pairwise (fun a b => ∀ x ∈ monthDays dp a, x ∉ monthDays dp b))
    (d : String) :
    dayUsed (mergeMonths dp ms1) d = dayUsed (mergeMonths dp ms2) d ∧
    dayCost (mergeMonths dp ms1) d = dayCost (mergeMonths dp ms2) d := by
  have h1 := day_totals_mergeMonths_from dp ms1 [] d
  have h2 := day_totals_mergeMonths_from dp ms2 [] d
  have hu : (ms1.map (fun items => (items.map (rowUsedAt dp d)).sum)).sum
      = (ms2.map (fun items => (items.map (rowUsedAt dp d)).sum)).sum :=
    (hperm.map (fun items => (items.map (rowUsedAt dp d)).sum)).sum_eq
  have hc : (ms1.map (fun items => (items.map (rowCostAt dp d)).sum)).sum
      = (ms2.map (fun items => (items.map (rowCostAt dp d)).sum)).sum :=
    (hperm.map (fun items => (items.map (rowCostAt dp d)).sum)).sum_eq
  rw [mergeMonths, mergeMonths]
  constructor
  · rw [h1.1, h2.1, hu]
  · rw [h1.2, h2.2, hc]

/-- C8 witness: two one-row months on distinct days, merged in both orders,
agree on the totals of both days. -/
theorem c8_merge_order_insensitive_witness :
    (dayUsed (mergeMonths (fun _ => none)
        [[{ product := "copilot", date := some "2024-01-01", quantity := some (.fin 1) }],
         [{ product := "copilot", date := some "2024-02-01", quantity := some (.fin 2) }]])
        "2024-02-01"
      = dayUsed (mergeMonths (fun _ => none)
        [[{ product := "copilot", date := some "2024-02-01", quantity := some (.fin 2) }],
         [{ product := "copilot", date := some "2024-01-01", quantity := some (.fin 1) }]])
        "2024-02-01") ∧
    (dayCost (mergeMonths (fun _ => none)
        [[{ product := "copilot", date := some "2024-01-01", quantity := some (.fin 1) }],
         [{ product := "copilot", date := some "2024-02-01", quantity := some (.fin 2) }]])
        "2024-02-01"
      = dayCost (mergeMonths (fun _ => none)
        [[{ product := "copilot", date := some "2024-02-01", quantity := some (.fin 2) }],
         [{ product := "copilot", date := some "2024-01-01", quantity := some (.fin 1) }]])
        "2024-02-01") :=
  c8_merge_order_insensitive (fun _ => none)
    [[{ product := "copilot", date := some "2024-01-01", quantity := some (.fin 1) }],
     [{ product := "copilot", date := some "2024-02-01", quantity := some (.fin 2) }]]
    [[{ product := "copilot", date := some "2024-02-01", quantity := some (.fin 2) }],
     [{ product := "copilot", date := some "2024-01-01", quantity := some (.fin 1) }]]
    (by decide) (by decide) "2024-02-01"

end UsageLimits
